import Mathlib

/-!
Shallow embedding of `litellm/llms/bedrock/image/amazon_stability3_transformation.py`
(class `AmazonStability3Config`) and proofs about its behaviour.

Python dictionaries are modelled as functions `String → Option Value`;
Python `float` arithmetic on the aspect-ratio table is modelled with exact
rationals `ℚ`; code that can raise returns `Except PyErr _`, with one
constructor per distinct Python exception the source can raise.
-/

/-- Python values that flow through the adapter's dictionaries. -/
inductive Value where
  | str : String → Value
  | int : Int → Value
  | list : List Value → Value

/-- A Python dict, modelled extensionally. -/
def Dict : Type := String → Option Value

/-- The empty dict `{}`. -/
def Dict.empty : Dict := fun _ => none

/-- `d.get(k)` / `d[k]` lookup. -/
def Dict.get (d : Dict) (k : String) : Option Value := d k

/-- `d[k] = v` assignment (also `dict(**d, k=v)` merging). -/
def Dict.set (d : Dict) (k : String) (v : Value) : Dict :=
  fun k' => if k' = k then some v else d k'

/-- `d.pop(k, None)`: the dict with key `k` removed. -/
def Dict.pop (d : Dict) (k : String) : Dict :=
  fun k' => if k' = k then none else d k'

/-- The Python exceptions the translated code can raise. -/
inductive PyErr where
  | valueError : PyErr
  | zeroDivisionError : PyErr
  | typeError : PyErr
  | attributeError : PyErr
deriving DecidableEq

/-- Python `s.split(sep)` for a single-character separator, on character
lists: splits at every occurrence of `sep`, keeping empty pieces, so that
`"".split("x") = [""]` and `"x".split("x") = ["", ""]`. -/
def splitChar (sep : Char) : List Char → List (List Char)
  | [] => [[]]
  | c :: t =>
    if c = sep then [] :: splitChar sep t
    else
      match splitChar sep t with
      | [] => [[c]]
      | h :: r => (c :: h) :: r

/-- Python's `str` whitespace set, as stripped by `int()`: ASCII control
whitespace `09–0D`, `1C–1F`, space, NEL `85`, and the Unicode `Zs`/`Zl`/`Zp`
space characters. -/
def pyWhitespace (c : Char) : Bool :=
  (0x09 ≤ c.toNat && c.toNat ≤ 0x0D) || (0x1C ≤ c.toNat && c.toNat ≤ 0x1F) ||
  c.toNat = 0x20 || c.toNat = 0x85 || c.toNat = 0xA0 || c.toNat = 0x1680 ||
  (0x2000 ≤ c.toNat && c.toNat ≤ 0x200A) || c.toNat = 0x2028 ||
  c.toNat = 0x2029 || c.toNat = 0x202F || c.toNat = 0x205F || c.toNat = 0x3000

/-- Start points of the `Nd` (decimal digit) blocks of Unicode 15.0; each
block holds the digits `0`–`9` at `lo`–`lo + 9`.  These are the digits
Python's `int()` accepts. -/
def ndRanges : List Nat :=
  [0x0030, 0x0660, 0x06F0, 0x07C0, 0x0966, 0x09E6, 0x0A66, 0x0AE6, 0x0B66,
   0x0BE6, 0x0C66, 0x0CE6, 0x0D66, 0x0DE6, 0x0E50, 0x0ED0, 0x0F20, 0x1040,
   0x1090, 0x17E0, 0x1810, 0x1946, 0x19D0, 0x1A80, 0x1A90, 0x1B50, 0x1BB0,
   0x1C40, 0x1C50, 0xA620, 0xA8D0, 0xA900, 0xA9D0, 0xA9F0, 0xAA50, 0xABF0,
   0xFF10, 0x104A0, 0x10D30, 0x11066, 0x110F0, 0x11136, 0x111D0, 0x112F0,
   0x11450, 0x114D0, 0x11650, 0x116C0, 0x11730, 0x118E0, 0x11950, 0x11C50,
   0x11D50, 0x11DA0, 0x11F50, 0x16A60, 0x16AC0, 0x16B50, 0x1D7CE, 0x1D7D8,
   0x1D7E2, 0x1D7EC, 0x1D7F6, 0x1E140, 0x1E2F0, 0x1E4F0, 0x1E950, 0x1FBF0]

/-- The decimal value of a Unicode `Nd` digit, `none` for any other character. -/
def decDigit (c : Char) : Option Nat :=
  (ndRanges.find? (fun lo => lo ≤ c.toNat && c.toNat ≤ lo + 9)).map
    (fun lo => c.toNat - lo)

/-- Digits after the first: a run of Unicode decimal digits in which single
underscores may appear between digits (PEP 515); `1__5`, `1_` are rejected. -/
def pyDigitsAux : Nat → List Char → Option Nat
  | acc, [] => some acc
  | acc, '_' :: rest =>
    match rest with
    | [] => none
    | c :: rest' =>
      match decDigit c with
      | some d => pyDigitsAux (10 * acc + d) rest'
      | none => none
  | acc, c :: rest =>
    match decDigit c with
    | some d => pyDigitsAux (10 * acc + d) rest
    | none => none

/-- A nonempty digit run, starting with a digit (no leading underscore). -/
def pyDigits : List Char → Option Nat
  | [] => none
  | c :: rest =>
    match decDigit c with
    | some d => pyDigitsAux d rest
    | none => none

/-- Python `int(s)` in base 10 on a token (as a character list): strip
surrounding whitespace (Python's `str` whitespace set), optional single ASCII
sign, then a nonempty run of Unicode decimal digits with single underscores
allowed between digits; `none` models `ValueError`. -/
def pyInt (tok : List Char) : Option Int :=
  let l := ((tok.dropWhile pyWhitespace).reverse.dropWhile pyWhitespace).reverse
  match l with
  | '-' :: rest => (pyDigits rest).map (fun n => -(n : Int))
  | '+' :: rest => (pyDigits rest).map (fun n => (n : Int))
  | rest => (pyDigits rest).map (fun n => (n : Int))

/-- The fixed `aspect_ratios` table from `map_openai_params`, in source order,
with the float ratios embedded as exact rationals. -/
def aspect_ratios : List (String × ℚ) :=
  [("16:9", 16/9), ("1:1", 1/1), ("21:9", 21/9), ("2:3", 2/3), ("3:2", 3/2),
   ("4:5", 4/5), ("5:4", 5/4), ("9:16", 9/16), ("9:21", 9/21)]

/-- Python `min(x :: xs, key := f)`: the first element attaining the least key. -/
def pyMin {α : Type} (f : α → ℚ) (x : α) (xs : List α) : α :=
  xs.foldl (fun b a => if f a < f b then a else b) x

/-- `AmazonStability3Config.get_supported_openai_params`. -/
def get_supported_openai_params (_model : Option String := none) : List String :=
  ["n", "response_format", "size"]

/-- Python substring test `sub in s`, on the character lists. -/
def strIn (sub s : String) : Bool := go sub.data s.data
where
  go (needle : List Char) : List Char → Bool
    | [] => needle.isPrefixOf []
    | c :: t => needle.isPrefixOf (c :: t) || go needle t

/-- `AmazonStability3Config._is_stability_3_model`; `if model:` is Python
truthiness, false for `None` and for the empty string. -/
def _is_stability_3_model (model : Option String := none) : Bool :=
  match model with
  | none => false
  | some m =>
    if m ≠ "" then
      if strIn "sd3" m || strIn "sd3.5" m then true
      else if strIn "stable-image-ultra-v1" m then true
      else false
    else false

/-- `AmazonStability3Config.map_openai_params`.  `width, height = map(int,
_size.split("x"))` raises `ValueError` unless the split yields exactly two
integer tokens; `width / height` raises `ZeroDivisionError` when `height == 0`;
`min` over the (nonempty) table keeps the first entry attaining the minimal
`abs(ratio - requested_ratio)`; the chosen label is stored in-place under
`"aspect_ratio"`. A non-string `size` value would raise `AttributeError` at
`.split`. -/
def map_openai_params (non_default_params optional_params : Dict) :
    Except PyErr Dict :=
  match Dict.get non_default_params "size" with
  | none => .ok optional_params
  | some (.str s) =>
    match splitChar 'x' s.data with
    | [a, b] =>
      match pyInt a, pyInt b with
      | some width, some height =>
        if height = 0 then .error .zeroDivisionError
        else
          let requested_ratio : ℚ := (width : ℚ) / (height : ℚ)
          match aspect_ratios with
          | [] => .error .valueError
          | p :: ps =>
            let closest_ratio := pyMin (fun x => |x.2 - requested_ratio|) p ps
            .ok (Dict.set optional_params "aspect_ratio" (.str closest_ratio.1))
      | _, _ => .error .valueError
    | _ => .error .valueError
  | some _ => .error .attributeError

/-- `AmazonStability3Config.transform_request_body`.  The body copies
`optional_params`, pops `aws_region_name` from the copy, and builds
`AmazonStability3TextToImageRequest(prompt=prompt, **params)`; a `"prompt"`
key surviving in `params` makes that call raise `TypeError` (duplicate keyword
argument). The second component of the result is the caller's
`optional_params` after the call: the pop acted on the copy, so it is the
original value. -/
def transform_request_body (prompt : String) (optional_params : Dict) :
    Except PyErr (Dict × Dict) :=
  let params := optional_params
  let params := Dict.pop params "aws_region_name"
  if (Dict.get params "prompt").isSome then .error .typeError
  else .ok (Dict.set params "prompt" (.str prompt), optional_params)

/-- The `openai.types.image.Image` record as used here: `Image(b64_json=_img)`
leaves the other optional fields `None`. -/
structure Image where
  b64_json : Option String := none
  url : Option String := none
  revised_prompt : Option String := none
deriving DecidableEq

/-- Modelled from the spec: the `GenericImageResponse` container
(`litellm.types.utils.ImageResponse`, outside `src/`): a mutable object with a
settable `data` field holding the image records, plus its other state
(abstracted as `created`), which this adapter never touches. -/
structure ImageResponse where
  created : Int
  data : List Image
deriving DecidableEq

/-- `[Image(b64_json=i) for i in l]` when every element of `l` is a string;
a non-string element fails the `Image` construction. -/
def strList : List Value → Option (List String)
  | [] => some []
  | .str s :: t => (strList t).map (fun r => s :: r)
  | _ => none

/-- `AmazonStability3Config.transform_response_dict_to_openai_response`.
`stability_3_response.get("images", [])` defaults to the empty list; the
`for` loop appends `Image(b64_json=_img)` in order; `model_response.data` is
overwritten and the same (now mutated) object returned.  Iterating a string
yields its characters; iterating a non-iterable value, or constructing an
`Image` from a non-string, is modelled as `TypeError`. -/
def transform_response_dict_to_openai_response
    (model_response : ImageResponse) (response_dict : Dict) :
    Except PyErr ImageResponse :=
  match (Dict.get response_dict "images").getD (.list []) with
  | .list l =>
    match strList l with
    | some strs =>
      .ok { model_response with
            data := strs.map (fun s => { b64_json := some s }) }
    | none => .error .typeError
  | .str s =>
    .ok { model_response with
          data := s.data.map (fun c => { b64_json := some (String.mk [c]) }) }
  | _ => .error .typeError

/-- A dict holding only a `size` entry, for concrete test inputs. -/
def sizeDict (s : String) : Dict := Dict.set Dict.empty "size" (.str s)

/-- The `aspect_ratio` entry produced by running `map_openai_params` on a
lone `size` entry against empty `optional_params`. -/
def arOf (s : String) : Option Value :=
  match map_openai_params (sizeDict s) Dict.empty with
  | .ok d => Dict.get d "aspect_ratio"
  | .error _ => none

/-! ### Properties of `pyMin` (Python's stable `min` with a key function) -/

theorem pyMin_cons {α : Type} (f : α → ℚ) (x a : α) (t : List α) :
    pyMin f x (a :: t) = pyMin f (if f a < f x then a else x) t := rfl

/-- The chosen element attains the least key over the whole (nonempty) list. -/
theorem pyMin_le {α : Type} (f : α → ℚ) (x : α) (xs : List α) :
    ∀ c ∈ x :: xs, f (pyMin f x xs) ≤ f c := by
  induction xs generalizing x with
  | nil =>
    intro c hc
    rw [List.mem_singleton] at hc
    subst hc
    exact le_refl _
  | cons a t ih =>
    intro c hc
    rw [pyMin_cons]
    rcases List.mem_cons.mp hc with rfl | hc
    · by_cases hax : f a < f c
      · rw [if_pos hax]
        exact le_trans (ih a a (List.mem_cons_self a t)) (le_of_lt hax)
      · rw [if_neg hax]
        exact ih c c (List.mem_cons_self c t)
    · rcases List.mem_cons.mp hc with rfl | hc
      · by_cases hax : f c < f x
        · rw [if_pos hax]
          exact ih c c (List.mem_cons_self c t)
        · rw [if_neg hax]
          exact le_trans (ih x x (List.mem_cons_self x t)) (not_lt.mp hax)
      · by_cases hax : f a < f x
        · rw [if_pos hax]
          exact ih a c (List.mem_cons_of_mem a hc)
        · rw [if_neg hax]
          exact ih x c (List.mem_cons_of_mem x hc)

/-- The chosen element is an element of the list. -/
theorem pyMin_mem {α : Type} (f : α → ℚ) (x : α) (xs : List α) :
    pyMin f x xs ∈ x :: xs := by
  induction xs generalizing x with
  | nil => exact List.mem_singleton.mpr rfl
  | cons a t ih =>
    rw [pyMin_cons]
    by_cases hax : f a < f x
    · rw [if_pos hax]
      exact List.mem_cons_of_mem x (ih a)
    · rw [if_neg hax]
      rcases List.mem_cons.mp (ih x) with h | h
      · rw [h]; exact List.mem_cons_self x (a :: t)
      · exact List.mem_cons_of_mem x (List.mem_cons_of_mem a h)

/-- Stability: the chosen element is the FIRST element attaining the least
key — everything strictly before it in the list has a strictly larger key. -/
theorem pyMin_first {α : Type} (f : α → ℚ) (x : α) (xs : List α) :
    ∃ l₁ l₂, x :: xs = l₁ ++ pyMin f x xs :: l₂ ∧
      (∀ a ∈ l₁, f (pyMin f x xs) < f a) ∧
      (∀ a ∈ l₂, f (pyMin f x xs) ≤ f a) := by
  induction xs generalizing x with
  | nil =>
    refine ⟨[], [], rfl, ?_, ?_⟩
    · intro a ha
      cases ha
    · intro a ha
      cases ha
  | cons a t ih =>
    rw [pyMin_cons]
    by_cases hax : f a < f x
    · rw [if_pos hax]
      obtain ⟨l₁, l₂, heq, h₁, h₂⟩ := ih a
      refine ⟨x :: l₁, l₂, ?_, ?_, h₂⟩
      · rw [List.cons_append, ← heq]
      · intro b hb
        rcases List.mem_cons.mp hb with rfl | hb
        · exact lt_of_le_of_lt (pyMin_le f a t a (List.mem_cons_self a t)) hax
        · exact h₁ b hb
    · rw [if_neg hax]
      obtain ⟨l₁, l₂, heq, h₁, h₂⟩ := ih x
      cases l₁ with
      | nil =>
        rw [List.nil_append] at heq
        injection heq with hx hl
        refine ⟨[], a :: t, ?_, ?_, ?_⟩
        · rw [List.nil_append, ← hx]
        · intro b hb; cases hb
        · intro b hb
          rcases List.mem_cons.mp hb with rfl | hb
          · rw [← hx]; exact not_lt.mp hax
          · exact pyMin_le f x t b (List.mem_cons_of_mem x hb)
      | cons c l₁' =>
        rw [List.cons_append] at heq
        injection heq with hxc ht
        have hmx : f (pyMin f x t) < f x :=
          hxc.symm ▸ h₁ c (List.mem_cons_self c l₁')
        refine ⟨x :: a :: l₁', l₂, ?_, ?_, h₂⟩
        · rw [List.cons_append, List.cons_append, ← ht]
        · intro b hb
          rcases List.mem_cons.mp hb with rfl | hb
          · exact hmx
          · rcases List.mem_cons.mp hb with rfl | hb
            · exact lt_of_lt_of_le hmx (not_lt.mp hax)
            · exact h₁ b (List.mem_cons_of_mem c hb)

/-! ### Properties of `strIn` (Python's substring test) -/

theorem strIn_go_iff (needle : List Char) (hay : List Char) :
    strIn.go needle hay = true ↔ needle <:+: hay := by
  induction hay with
  | nil =>
    rw [strIn.go, List.isPrefixOf_iff_prefix, List.infix_nil, List.prefix_nil]
  | cons c t ih =>
    rw [strIn.go, Bool.or_eq_true, List.isPrefixOf_iff_prefix, ih,
      List.infix_cons_iff]

theorem strIn_iff (sub s : String) : strIn sub s = true ↔ sub.data <:+: s.data :=
  strIn_go_iff sub.data s.data

/-! ### Running `map_openai_params` on a well-formed `size` -/

/-- The tail of the fixed table (all entries after `"16:9"`). -/
def ratioTail : List (String × ℚ) :=
  [("1:1", 1/1), ("21:9", 21/9), ("2:3", 2/3), ("3:2", 3/2),
   ("4:5", 4/5), ("5:4", 5/4), ("9:16", 9/16), ("9:21", 9/21)]

/-- The entry the source's `min` selects for a requested ratio `r`:
`pyMin` over the head and tail of the fixed table. -/
def chooseEntry (r : ℚ) : String × ℚ :=
  pyMin (fun x => |x.2 - r|) ("16:9", 16/9) ratioTail

theorem aspect_ratios_cons : aspect_ratios = ("16:9", (16:ℚ)/9) :: ratioTail := rfl

theorem chooseEntry_mem (r : ℚ) : chooseEntry r ∈ aspect_ratios := by
  unfold chooseEntry
  rw [aspect_ratios_cons]
  exact pyMin_mem (fun x => |x.2 - r|) ("16:9", 16/9) ratioTail

theorem chooseEntry_le (r : ℚ) :
    ∀ p ∈ aspect_ratios, |(chooseEntry r).2 - r| ≤ |p.2 - r| := by
  intro p hp
  rw [aspect_ratios_cons] at hp
  exact pyMin_le (fun x => |x.2 - r|) ("16:9", 16/9) ratioTail p hp

/-- Unfolding `map_openai_params` along the success path: a present string
`size` that splits into two integer tokens with a nonzero height yields the
in-place `aspect_ratio` update with the `pyMin`-selected label. -/
theorem map_openai_params_run (nd op : Dict) (s : String) (a b : List Char)
    (w h : Int) (hs : Dict.get nd "size" = some (.str s))
    (hsplit : splitChar 'x' s.data = [a, b])
    (ha : pyInt a = some w) (hb : pyInt b = some h) (hh : h ≠ 0) :
    map_openai_params nd op =
      .ok (Dict.set op "aspect_ratio"
        (.str (chooseEntry ((w : ℚ) / (h : ℚ))).1)) := by
  simp only [map_openai_params, hs, hsplit, ha, hb]
  rw [if_neg hh]
  rfl

/-- Any successful call either left `optional_params` untouched (no `size`)
or stored a label from the fixed table under `"aspect_ratio"`. -/
theorem map_openai_params_ok_cases (nd op d : Dict)
    (hok : map_openai_params nd op = .ok d) :
    (Dict.get nd "size" = none ∧ d = op) ∨
    (∃ s, Dict.get nd "size" = some (.str s) ∧
      ∃ entry ∈ aspect_ratios, d = Dict.set op "aspect_ratio" (.str entry.1)) := by
  simp only [map_openai_params, aspect_ratios] at hok
  split at hok
  · next hv =>
    injection hok with hd
    exact Or.inl ⟨hv, hd.symm⟩
  · next s hv =>
    refine Or.inr ⟨s, hv, ?_⟩
    split at hok
    · next a b hsp =>
      split at hok
      · next w h hpa hpb =>
        split at hok
        · simp at hok
        · next hh =>
          injection hok with hd
          refine ⟨chooseEntry ((w : ℚ) / (h : ℚ)), chooseEntry_mem _, ?_⟩
          rw [← hd]
          rfl
      · simp at hok
    · simp at hok
  · simp at hok

/-! ### Characterising when the `size` path raises -/

/-- A `size` string is well formed when it splits on `"x"` into exactly two
integer tokens whose height token is nonzero. -/
def sizeOk (s : String) : Bool :=
  match splitChar 'x' s.data with
  | [a, b] =>
    match pyInt a, pyInt b with
    | some _, some h => h != 0
    | _, _ => false
  | _ => false

/-- With a string `size` present, the call raises exactly when the size
string is not well formed in the sense of `sizeOk`. -/
theorem map_openai_params_error_iff (nd op : Dict) (s : String)
    (hs : Dict.get nd "size" = some (.str s)) :
    (∃ e, map_openai_params nd op = .error e) ↔ sizeOk s = false := by
  rcases hsp : splitChar 'x' s.data with _ | ⟨a, _ | ⟨b, _ | ⟨c, rest⟩⟩⟩
  · simp [map_openai_params, aspect_ratios, sizeOk, hs, hsp]
  · simp [map_openai_params, aspect_ratios, sizeOk, hs, hsp]
  · rcases hpa : pyInt a with _ | w
    · simp [map_openai_params, aspect_ratios, sizeOk, hs, hsp, hpa]
    · rcases hpb : pyInt b with _ | h
      · simp [map_openai_params, aspect_ratios, sizeOk, hs, hsp, hpa, hpb]
      · by_cases hh : h = 0
        · simp [map_openai_params, aspect_ratios, sizeOk, hs, hsp, hpa, hpb, hh]
        · simp [map_openai_params, aspect_ratios, sizeOk, hs, hsp, hpa, hpb, hh]
  · simp [map_openai_params, aspect_ratios, sizeOk, hs, hsp]

/-! ### The response transformation -/

theorem strList_map_str (strs : List String) : strList (strs.map Value.str) = some strs := by
  induction strs with
  | nil => rfl
  | cons s t ih => rw [List.map_cons, strList, ih, Option.map_some']

/-! ## Claim theorems -/

/-- C9: `get_supported_openai_params` returns exactly
`["n", "response_format", "size"]` in that order, regardless of the model
argument. -/
theorem c9_supported_params_constant (m : Option String) :
    get_supported_openai_params m = ["n", "response_format", "size"] := rfl

/-- C5: `_is_stability_3_model m` is true iff `m` is a present, non-empty
string containing the substring `"sd3"` or the substring
`"stable-image-ultra-v1"`; it is false for `none` and for the empty string
(and, being a total Lean function, never raises). -/
theorem c5_is_stability_3_model_iff (m : Option String) :
    _is_stability_3_model m = true ↔
      ∃ s, m = some s ∧ s ≠ "" ∧
        ("sd3".data <:+: s.data ∨ ("stable-image-ultra-v1").data <:+: s.data) := by
  cases m with
  | none => simp [_is_stability_3_model]
  | some s =>
    by_cases hse : s = ""
    · subst hse
      simp [_is_stability_3_model]
    · rw [_is_stability_3_model, if_pos hse]
      have hcollapse :
          (if strIn "sd3" s || strIn "sd3.5" s then true
           else if strIn "stable-image-ultra-v1" s then true else false) =
            (strIn "sd3" s || strIn "sd3.5" s || strIn "stable-image-ultra-v1" s) := by
        cases h1 : strIn "sd3" s <;> cases h2 : strIn "sd3.5" s <;>
          cases h3 : strIn "stable-image-ultra-v1" s <;> simp [h1, h2, h3]
      rw [hcollapse]
      simp only [Bool.or_eq_true, strIn_iff, hse, ne_eq, not_false_iff,
        Option.some.injEq, exists_eq_left', true_and]
      constructor
      · rintro ((hA | hB) | hC)
        · exact Or.inl hA
        · exact Or.inl ((show "sd3".data <+: "sd3.5".data by decide).isInfix.trans hB)
        · exact Or.inr hC
      · rintro (hA | hC)
        · exact Or.inl (Or.inl hA)
        · exact Or.inr hC

/-- C8: when `non_default_params` has no `"size"` key, `map_openai_params`
returns `optional_params` itself, unchanged; and in every successful case the
returned mapping is `optional_params` — either exactly, or updated in place
at the single key `"aspect_ratio"`. -/
theorem c8_no_size_identity (nd op : Dict) :
    (Dict.get nd "size" = none → map_openai_params nd op = .ok op) ∧
    (∀ d, map_openai_params nd op = .ok d →
      d = op ∨ ∃ label, d = Dict.set op "aspect_ratio" (.str label)) := by
  constructor
  · intro hnone
    simp [map_openai_params, hnone]
  · intro d hok
    rcases map_openai_params_ok_cases nd op d hok with ⟨-, hd⟩ | ⟨s, -, entry, -, hd⟩
    · exact Or.inl hd
    · exact Or.inr ⟨entry.1, hd⟩

/-- A dict holding one string entry under `"foo"`, for concrete witnesses. -/
def fooDict : Dict := Dict.set Dict.empty "foo" (.str "bar")

/-- Witness for C8 at `non_default_params = {}`, `optional_params = {foo: "bar"}`. -/
theorem c8_no_size_identity_witness :
    Dict.get Dict.empty "size" = none ∧
      map_openai_params Dict.empty fooDict = .ok fooDict :=
  ⟨rfl, (c8_no_size_identity Dict.empty fooDict).1 rfl⟩

/-- C10: whenever `map_openai_params` succeeds with a `"size"` key present,
the result is `optional_params` updated at exactly the key `"aspect_ratio"`
(no other binding is added or changed), and the stored label is one of the
nine fixed labels of the table. -/
theorem c10_aspect_ratio_invariant (nd op d : Dict) (v : Value)
    (hs : Dict.get nd "size" = some v)
    (hok : map_openai_params nd op = .ok d) :
    ∃ label ∈ aspect_ratios.map Prod.fst,
      d = Dict.set op "aspect_ratio" (.str label) ∧
      (∀ k, k ≠ "aspect_ratio" → Dict.get d k = Dict.get op k) ∧
      aspect_ratios.map Prod.fst =
        ["16:9", "1:1", "21:9", "2:3", "3:2", "4:5", "5:4", "9:16", "9:21"] := by
  rcases map_openai_params_ok_cases nd op d hok with ⟨hnone, -⟩ | ⟨s, -, entry, hmem, hd⟩
  · rw [hs] at hnone
    cases hnone
  · refine ⟨entry.1, List.mem_map_of_mem Prod.fst hmem, hd, ?_, rfl⟩
    intro k hk
    rw [hd]
    show (if k = "aspect_ratio" then some (Value.str entry.1) else op k) = op k
    rw [if_neg hk]

/-- Witness for C10 at `size = "1024x1024"` against empty `optional_params`. -/
theorem c10_aspect_ratio_invariant_witness :
    ∃ d, map_openai_params (sizeDict "1024x1024") Dict.empty = .ok d ∧
      ∃ label ∈ aspect_ratios.map Prod.fst,
        d = Dict.set Dict.empty "aspect_ratio" (.str label) ∧
        (∀ k, k ≠ "aspect_ratio" → Dict.get d k = Dict.get Dict.empty k) ∧
        aspect_ratios.map Prod.fst =
          ["16:9", "1:1", "21:9", "2:3", "3:2", "4:5", "5:4", "9:16", "9:21"] := by
  have hok := map_openai_params_run (sizeDict "1024x1024") Dict.empty "1024x1024"
    "1024".data "1024".data 1024 1024 rfl (by decide) (by decide) (by decide)
    (by decide)
  exact ⟨_, hok,
    c10_aspect_ratio_invariant (sizeDict "1024x1024") Dict.empty _ _ rfl hok⟩

/- `pyInt` fidelity checks against CPython `int()`:
`int("1_5") = 15`, `int(" -5 ") = -5`, `int("١٢٣") = 123`, `int("５６") = 56`,
while `"1__5"`, `"_15"`, `"15_"`, `"- 5"`, `""` raise `ValueError`. -/
example : pyInt "1_5".data = some 15 := by decide
example : pyInt " -5 ".data = some (-5) := by decide
example : pyInt "١٢٣".data = some 123 := by decide
example : pyInt "５６".data = some 56 := by decide
example : pyInt "1__5".data = none := by decide
example : pyInt "_15".data = none := by decide
example : pyInt "15_".data = none := by decide
example : pyInt "- 5".data = none := by decide
example : pyInt "".data = none := by decide

/- An underscore-grouped size is a program success path: `"1_5x3"` splits
into two tokens that `int()` accepts, so it is well formed. -/
example : sizeOk "1_5x3" = true := by decide

/-- C2 counterexample: the claim says a zero **or negative** parsed height
fails; but for `size = "100x-50"` the height parses to `-50 < 0` and the call
succeeds, storing the label nearest to the negative ratio (`"9:21"`). -/
theorem c2_counterexample_negative_height :
    pyInt "-50".data = some (-50) ∧ ((-50 : Int) < 0) ∧
    ∃ d, map_openai_params (sizeDict "100x-50") Dict.empty = .ok d ∧
      Dict.get d "aspect_ratio" = some (.str "9:21") := by
  refine ⟨by decide, by decide, ?_⟩
  have hok := map_openai_params_run (sizeDict "100x-50") Dict.empty "100x-50"
    "100".data "-50".data 100 (-50) rfl (by decide) (by decide) (by decide)
    (by decide)
  refine ⟨_, hok, ?_⟩
  have hlabel : (chooseEntry (((100 : Int) : ℚ) / ((-50 : Int) : ℚ))).1 = "9:21" := by
    norm_num [chooseEntry, ratioTail, pyMin, List.foldl, abs]
  show (if "aspect_ratio" = "aspect_ratio"
      then some (Value.str (chooseEntry (((100 : Int) : ℚ) / ((-50 : Int) : ℚ))).1)
      else Dict.empty "aspect_ratio") = some (.str "9:21")
  rw [if_pos rfl, hlabel]

/-- C2 (amended): with a string `size` present, the call fails exactly when
the string does not split on `"x"` into two integer tokens with a nonzero
height token (a negative height is accepted); in particular with two integer
tokens and positive width and height it succeeds. -/
theorem c2_size_error_characterisation (nd op : Dict) (s : String)
    (hs : Dict.get nd "size" = some (.str s)) :
    ((∃ e, map_openai_params nd op = .error e) ↔ sizeOk s = false) ∧
    (∀ a b w h, splitChar 'x' s.data = [a, b] → pyInt a = some w →
      pyInt b = some h → 0 < w → 0 < h →
      ∃ d, map_openai_params nd op = .ok d) := by
  refine ⟨map_openai_params_error_iff nd op s hs, ?_⟩
  intro a b w h hsp hpa hpb _ hh
  exact ⟨_, map_openai_params_run nd op s a b w h hs hsp hpa hpb
    (ne_of_gt hh)⟩

/-- Witness for C2 at `size = "1024x768"`. -/
theorem c2_size_error_characterisation_witness :
    Dict.get (sizeDict "1024x768") "size" = some (.str "1024x768") ∧
    ((∃ e, map_openai_params (sizeDict "1024x768") Dict.empty = .error e) ↔
      sizeOk "1024x768" = false) :=
  ⟨rfl, (c2_size_error_characterisation (sizeDict "1024x768") Dict.empty
    "1024x768" rfl).1⟩

/-- C3 counterexample: the claim quantifies over every `optionalParams`, but
when `optionalParams` itself contains a `"prompt"` key the request
construction receives a duplicate keyword argument and raises `TypeError`
instead of returning a request. -/
theorem c3_counterexample_prompt_key :
    transform_request_body "a cat" (Dict.set Dict.empty "prompt" (.str "x")) =
      .error .typeError := rfl

/-- C3 (amended): for every `optionalParams` without a `"prompt"` key, the
built request contains no `aws_region_name`, binds `"prompt"` to the prompt,
carries every other entry unchanged, and the caller's `optionalParams` is
left unmutated (the pop acts on a local copy). -/
theorem c3_transform_request_frame (prompt : String) (op : Dict)
    (hp : Dict.get op "prompt" = none) :
    ∃ req, transform_request_body prompt op = .ok (req, op) ∧
      Dict.get req "aws_region_name" = none ∧
      Dict.get req "prompt" = some (.str prompt) ∧
      ∀ k, k ≠ "prompt" → k ≠ "aws_region_name" →
        Dict.get req k = Dict.get op k := by
  have hp' : Dict.get (Dict.pop op "aws_region_name") "prompt" = none := by
    show (if "prompt" = "aws_region_name" then none else op "prompt") = none
    rw [if_neg (by decide)]
    exact hp
  refine ⟨Dict.set (Dict.pop op "aws_region_name") "prompt" (.str prompt),
    ?_, ?_, ?_, ?_⟩
  · simp only [transform_request_body]
    rw [hp']
    simp
  · show (if "aws_region_name" = "prompt"
        then some (Value.str prompt)
        else Dict.pop op "aws_region_name" "aws_region_name") = none
    rw [if_neg (by decide)]
    show (if "aws_region_name" = "aws_region_name" then none
        else op "aws_region_name") = none
    rw [if_pos rfl]
  · show (if "prompt" = "prompt" then some (Value.str prompt)
        else Dict.pop op "aws_region_name" "prompt") = some (Value.str prompt)
    rw [if_pos rfl]
  · intro k hk1 hk2
    show (if k = "prompt" then some (Value.str prompt)
        else Dict.pop op "aws_region_name" k) = op k
    rw [if_neg hk1]
    show (if k = "aws_region_name" then none else op k) = op k
    rw [if_neg hk2]

/-- A dict holding only an `aws_region_name` entry, for concrete witnesses. -/
def regionDict : Dict := Dict.set Dict.empty "aws_region_name" (.str "us-east-1")

/-- Witness for C3 at `prompt = "a cat"`,
`optionalParams = {aws_region_name: "us-east-1"}`. -/
theorem c3_transform_request_frame_witness :
    Dict.get regionDict "prompt" = none ∧
    ∃ req, transform_request_body "a cat" regionDict = .ok (req, regionDict) ∧
      Dict.get req "aws_region_name" = none ∧
      Dict.get req "prompt" = some (.str "a cat") ∧
      ∀ k, k ≠ "prompt" → k ≠ "aws_region_name" →
        Dict.get req k = Dict.get regionDict k :=
  ⟨rfl, c3_transform_request_frame "a cat" regionDict rfl⟩

/-- C7: when the response dict has no `"images"` key the call does not raise
and sets `data` to the empty sequence (while touching nothing else). -/
theorem c7_missing_images_empty (mr : ImageResponse) (rd : Dict)
    (him : Dict.get rd "images" = none) :
    transform_response_dict_to_openai_response mr rd =
      .ok { mr with data := [] } := by
  simp [transform_response_dict_to_openai_response, him, strList]

/-- A concrete prior response object whose `data` is nonempty. -/
def mr0 : ImageResponse := { created := 7, data := [{ b64_json := some "old" }] }

/-- Witness for C7 at the empty response dict. -/
theorem c7_missing_images_empty_witness :
    transform_response_dict_to_openai_response mr0 Dict.empty =
      .ok { mr0 with data := [] } :=
  c7_missing_images_empty mr0 Dict.empty rfl

/-- C4: when `"images"` holds the string sequence `strs`, the call overwrites
`model_response.data` with exactly one `{b64_json := s}` record per string,
in order (same length, `i`-th record from the `i`-th string), preserving the
rest of the object and returning that same updated object. -/
theorem c4_parse_response (mr : ImageResponse) (rd : Dict) (strs : List String)
    (him : Dict.get rd "images" = some (.list (strs.map Value.str))) :
    transform_response_dict_to_openai_response mr rd =
      .ok { mr with data := strs.map (fun s => { b64_json := some s }) } ∧
    (strs.map (fun s => ({ b64_json := some s } : Image))).length = strs.length ∧
    ∀ i : Nat, (strs.map (fun s => ({ b64_json := some s } : Image)))[i]? =
      (strs[i]?).map (fun s => ({ b64_json := some s } : Image)) := by
  refine ⟨?_, List.length_map strs _, fun i => List.getElem?_map _ strs i⟩
  simp only [transform_response_dict_to_openai_response, him, Option.getD_some,
    strList_map_str]

/-- A response dict carrying two base64 images, the spec's own test vector. -/
def imagesDict : Dict :=
  Dict.set Dict.empty "images" (.list [.str "QUJD", .str "RUZH"])

/-- Witness for C4 at `{images: ["QUJD", "RUZH"]}` against a response object
with nonempty prior `data`. -/
theorem c4_parse_response_witness :
    transform_response_dict_to_openai_response mr0 imagesDict =
      .ok { mr0 with
            data := ["QUJD", "RUZH"].map (fun s => { b64_json := some s }) } ∧
    (["QUJD", "RUZH"].map (fun s => ({ b64_json := some s } : Image))).length =
      (["QUJD", "RUZH"] : List String).length ∧
    ∀ i : Nat, (["QUJD", "RUZH"].map (fun s => ({ b64_json := some s } : Image)))[i]? =
      ((["QUJD", "RUZH"] : List String)[i]?).map
        (fun s => ({ b64_json := some s } : Image)) :=
  c4_parse_response mr0 imagesDict ["QUJD", "RUZH"] rfl

/-- Evaluating `arOf` along the success path. -/
theorem arOf_run (s : String) (a b : List Char) (w h : Int)
    (hsplit : splitChar 'x' s.data = [a, b]) (ha : pyInt a = some w)
    (hb : pyInt b = some h) (hh : h ≠ 0) :
    arOf s = some (.str (chooseEntry ((w : ℚ) / (h : ℚ))).1) := by
  unfold arOf
  rw [map_openai_params_run (sizeDict s) Dict.empty s a b w h rfl hsplit ha hb hh]
  rfl

/- The underscore-grouped size `"1_5x3"` parses to `15 / 3 = 5.0` and the
call succeeds, storing `"21:9"`. -/
example : arOf "1_5x3" = some (.str "21:9") := by
  rw [arOf_run "1_5x3" "1_5".data "3".data 15 3 (by decide) (by decide)
    (by decide) (by decide)]
  norm_num [chooseEntry, ratioTail, pyMin, List.foldl, abs]

/-- C1: for every well-formed positive `size = "<w>x<h>"`, the stored
`aspect_ratio` label is an entry of the fixed 9-entry table whose ratio
minimises the absolute difference to `w / h`; in particular `"1024x1024"`
yields `"1:1"`, `"1920x1080"` yields `"16:9"` and `"1000x500"` yields
`"16:9"`. -/
theorem c1_nearest_aspect_ratio (nd op : Dict) (s : String) (a b : List Char)
    (w h : Int) (hs : Dict.get nd "size" = some (.str s))
    (hsplit : splitChar 'x' s.data = [a, b])
    (ha : pyInt a = some w) (hb : pyInt b = some h)
    (hw : 0 < w) (hh : 0 < h) :
    (∃ r, ((chooseEntry ((w : ℚ) / (h : ℚ))).1, r) ∈ aspect_ratios ∧
      map_openai_params nd op =
        .ok (Dict.set op "aspect_ratio"
          (.str (chooseEntry ((w : ℚ) / (h : ℚ))).1)) ∧
      ∀ p ∈ aspect_ratios,
        |r - (w : ℚ) / (h : ℚ)| ≤ |p.2 - (w : ℚ) / (h : ℚ)|) ∧
    arOf "1024x1024" = some (.str "1:1") ∧
    arOf "1920x1080" = some (.str "16:9") ∧
    arOf "1000x500" = some (.str "16:9") := by
  refine ⟨⟨(chooseEntry ((w : ℚ) / (h : ℚ))).2, ?_, ?_, ?_⟩, ?_, ?_, ?_⟩
  · rw [Prod.mk.eta]
    exact chooseEntry_mem _
  · exact map_openai_params_run nd op s a b w h hs hsplit ha hb (ne_of_gt hh)
  · exact chooseEntry_le _
  · rw [arOf_run "1024x1024" "1024".data "1024".data 1024 1024 (by decide)
      (by decide) (by decide) (by decide)]
    norm_num [chooseEntry, ratioTail, pyMin, List.foldl, abs]
  · rw [arOf_run "1920x1080" "1920".data "1080".data 1920 1080 (by decide)
      (by decide) (by decide) (by decide)]
    norm_num [chooseEntry, ratioTail, pyMin, List.foldl, abs]
  · rw [arOf_run "1000x500" "1000".data "500".data 1000 500 (by decide)
      (by decide) (by decide) (by decide)]
    norm_num [chooseEntry, ratioTail, pyMin, List.foldl, abs]

/-- Witness for C1 at `size = "1920x1080"` against empty `optional_params`. -/
theorem c1_nearest_aspect_ratio_witness :
    Dict.get (sizeDict "1920x1080") "size" = some (.str "1920x1080") ∧
    ((∃ r, ((chooseEntry (((1920 : Int) : ℚ) / ((1080 : Int) : ℚ))).1, r) ∈ aspect_ratios ∧
      map_openai_params (sizeDict "1920x1080") Dict.empty =
        .ok (Dict.set Dict.empty "aspect_ratio"
          (.str (chooseEntry (((1920 : Int) : ℚ) / ((1080 : Int) : ℚ))).1)) ∧
      ∀ p ∈ aspect_ratios,
        |r - ((1920 : Int) : ℚ) / ((1080 : Int) : ℚ)| ≤
          |p.2 - ((1920 : Int) : ℚ) / ((1080 : Int) : ℚ)|) ∧
    arOf "1024x1024" = some (.str "1:1") ∧
    arOf "1920x1080" = some (.str "16:9") ∧
    arOf "1000x500" = some (.str "16:9")) :=
  ⟨rfl, c1_nearest_aspect_ratio (sizeDict "1920x1080") Dict.empty "1920x1080"
    "1920".data "1080".data 1920 1080 rfl (by decide) (by decide) (by decide)
    (by decide) (by decide)⟩

/-- C6: whenever the requested ratio is exactly equidistant from two or more
table entries at the minimal distance, the stored label is still the chosen
`pyMin` entry, and that entry is the FIRST minimiser in the fixed enumeration
order `16:9, 1:1, 21:9, 2:3, 3:2, 4:5, 5:4, 9:16, 9:21`: every entry before
it in the table is strictly farther from the requested ratio, every entry
after it at least as far. -/
theorem c6_tie_break_first (nd op : Dict) (s : String) (a b : List Char)
    (w h : Int) (hs : Dict.get nd "size" = some (.str s))
    (hsplit : splitChar 'x' s.data = [a, b])
    (ha : pyInt a = some w) (hb : pyInt b = some h) (hh : h ≠ 0)
    (htie : ∃ p ∈ aspect_ratios, ∃ q ∈ aspect_ratios, p ≠ q ∧
      |p.2 - (w : ℚ) / (h : ℚ)| = |q.2 - (w : ℚ) / (h : ℚ)| ∧
      ∀ o ∈ aspect_ratios,
        |p.2 - (w : ℚ) / (h : ℚ)| ≤ |o.2 - (w : ℚ) / (h : ℚ)|) :
    map_openai_params nd op =
      .ok (Dict.set op "aspect_ratio"
        (.str (chooseEntry ((w : ℚ) / (h : ℚ))).1)) ∧
    ∃ l₁ l₂, aspect_ratios = l₁ ++ chooseEntry ((w : ℚ) / (h : ℚ)) :: l₂ ∧
      (∀ p ∈ l₁, |(chooseEntry ((w : ℚ) / (h : ℚ))).2 - (w : ℚ) / (h : ℚ)| <
        |p.2 - (w : ℚ) / (h : ℚ)|) ∧
      (∀ p ∈ l₂, |(chooseEntry ((w : ℚ) / (h : ℚ))).2 - (w : ℚ) / (h : ℚ)| ≤
        |p.2 - (w : ℚ) / (h : ℚ)|) := by
  refine ⟨map_openai_params_run nd op s a b w h hs hsplit ha hb hh, ?_⟩
  obtain ⟨l₁, l₂, heq, h₁, h₂⟩ :=
    pyMin_first (fun x => |x.2 - (w : ℚ) / (h : ℚ)|) ("16:9", 16/9) ratioTail
  refine ⟨l₁, l₂, ?_, h₁, h₂⟩
  rw [aspect_ratios_cons]
  exact heq

/-- Witness for C6 at `size = "11x8"`: the ratio `11/8` is exactly equidistant
(at distance `1/8`) from `3:2` and `5:4`, both minimal; the earlier entry
`3:2` is selected. -/
theorem c6_tie_break_first_witness :
    (chooseEntry (((11 : Int) : ℚ) / ((8 : Int) : ℚ))).1 = "3:2" ∧
    (map_openai_params (sizeDict "11x8") Dict.empty =
      .ok (Dict.set Dict.empty "aspect_ratio"
        (.str (chooseEntry (((11 : Int) : ℚ) / ((8 : Int) : ℚ))).1)) ∧
    ∃ l₁ l₂, aspect_ratios = l₁ ++ chooseEntry (((11 : Int) : ℚ) / ((8 : Int) : ℚ)) :: l₂ ∧
      (∀ p ∈ l₁,
        |(chooseEntry (((11 : Int) : ℚ) / ((8 : Int) : ℚ))).2 -
          ((11 : Int) : ℚ) / ((8 : Int) : ℚ)| <
        |p.2 - ((11 : Int) : ℚ) / ((8 : Int) : ℚ)|) ∧
      (∀ p ∈ l₂,
        |(chooseEntry (((11 : Int) : ℚ) / ((8 : Int) : ℚ))).2 -
          ((11 : Int) : ℚ) / ((8 : Int) : ℚ)| ≤
        |p.2 - ((11 : Int) : ℚ) / ((8 : Int) : ℚ)|)) := by
  constructor
  · norm_num [chooseEntry, ratioTail, pyMin, List.foldl, abs]
  · refine c6_tie_break_first (sizeDict "11x8") Dict.empty "11x8" "11".data
      "8".data 11 8 rfl (by decide) (by decide) (by decide) (by decide) ?_
    refine ⟨("3:2", 3/2), ?_, ("5:4", 5/4), ?_, ?_, ?_, ?_⟩
    · rw [aspect_ratios_cons, ratioTail]
      exact List.mem_cons_of_mem _ (List.mem_cons_of_mem _
        (List.mem_cons_of_mem _ (List.mem_cons_of_mem _ (List.mem_cons_self _ _))))
    · rw [aspect_ratios_cons, ratioTail]
      exact List.mem_cons_of_mem _ (List.mem_cons_of_mem _
        (List.mem_cons_of_mem _ (List.mem_cons_of_mem _ (List.mem_cons_of_mem _
          (List.mem_cons_of_mem _ (List.mem_cons_self _ _))))))
    · simp [Prod.ext_iff]
    · norm_num [abs]
    · intro o ho
      simp only [aspect_ratios] at ho
      fin_cases ho <;> norm_num [abs]
